import Mathlib

/-!
Shallow embedding of the `ok-err` Result library.

The repository ships two expressions of one contract:
  * a method-bearing style (`src/index.ts`): classes `Ok`/`Err` with bound
    combinators, a curried `err` constructor, and a universal adapter
    `result` that rehydrates plain records, wraps promises, or invokes
    zero-argument callables;
  * a free-function style (the record module): plain `{ ok, value }` /
    `{ ok, error }` records with free combinators, a two-overload `err`,
    an adapter without a rehydration branch, and a two-protocol `match`.

JavaScript runtime values are modelled by the inductive `Val` below
(numbers as `Int`; no claim under verification involves fractional
numbers).  Objects are insertion-ordered field lists, as in JS.
-/

namespace OkErr

mutual

/-- A JavaScript value: `undefined`, `null`, booleans, numbers, strings,
arrays, and plain objects (insertion-ordered field lists). -/
inductive Val where
  | undefined : Val
  | null : Val
  | bool : Bool → Val
  | num : Int → Val
  | str : String → Val
  | arr : ValList → Val
  | obj : ObjFields → Val
deriving DecidableEq

/-- The elements of a JS array value. -/
inductive ValList where
  | nil : ValList
  | cons : Val → ValList → ValList
deriving DecidableEq

/-- The own enumerable fields of a JS object, in insertion order. -/
inductive ObjFields where
  | nil : ObjFields
  | cons : String → Val → ObjFields → ObjFields
deriving DecidableEq

end

/-- Field lookup: the value at the first occurrence of the key. -/
def ObjFields.lookup : ObjFields → String → Option Val
  | .nil, _ => none
  | .cons k v rest, key => if k = key then some v else rest.lookup key

/-- `key in obj`: whether the key is present. -/
def ObjFields.hasKey (fs : ObjFields) (k : String) : Bool :=
  (fs.lookup k).isSome

/-- The keys of an object, in insertion order. -/
def ObjFields.keys : ObjFields → List String
  | .nil => []
  | .cons k _ rest => k :: rest.keys

/-- JS property assignment `o[k] = v`: an existing key keeps its position
and gets the new value; an absent key is appended at the end. -/
def ObjFields.set : ObjFields → String → Val → ObjFields
  | .nil, k, v => .cons k v .nil
  | .cons k0 v0 rest, k, v =>
      if k0 = k then .cons k0 v rest else .cons k0 v0 (rest.set k v)

/-- Concatenation of field lists. -/
def ObjFields.append : ObjFields → ObjFields → ObjFields
  | .nil, q => q
  | .cons k v rest, q => .cons k v (rest.append q)

/-- JS object spread `{ ...acc, ...src }`: assign each field of `src`
into `acc` in order. -/
def ObjFields.spread : ObjFields → ObjFields → ObjFields
  | acc, .nil => acc
  | acc, .cons k v rest => ObjFields.spread (acc.set k v) rest

/-- Whether the keys of a field list are pairwise distinct (true for any
field list that arose from an actual JS object). -/
def ObjFields.nodupKeys : ObjFields → Bool
  | .nil => true
  | .cons k _ rest => !rest.hasKey k && rest.nodupKeys

/-- JS truthiness of a value. -/
def jsTruthy : Val → Bool
  | .undefined => false
  | .null => false
  | .bool b => b
  | .num n => n != 0
  | .str s => !(s = "")
  | .arr _ => true
  | .obj _ => true

/-- `typeof v === "object" && v !== null`, as used by the adapter's
shape guards (arrays and plain objects qualify). -/
def isObjLike : Val → Bool
  | .arr _ => true
  | .obj _ => true
  | _ => false

/-- Property read `v[k]` for the string keys the library inspects:
object fields, `undefined` otherwise. -/
def Val.getKey : Val → String → Val
  | .obj fs, k => (fs.lookup k).getD .undefined
  | _, _ => .undefined

/-- Membership test `k in v` for the string keys the library inspects. -/
def Val.hasKey : Val → String → Bool
  | .obj fs, k => fs.hasKey k
  | _, _ => false

/-- The `Result<ValueType, ErrorType>` union: the typed view shared by
the class style (`Ok`/`Err` instances) and the record style
(`{ ok: true, value }` / `{ ok: false, error }` records). -/
inductive Result (V : Type u) (E : Type v) where
  | Ok (value : V)
  | Err (error : E)
deriving DecidableEq

/-- A `Result` whose value and error are dynamic JS values. -/
abbrev ResultV := Result Val Val

/-- The payload a Result carries: its `value` for Success, its `error`
for Failure. -/
def Result.payload : ResultV → Val
  | .Ok v => v
  | .Err e => e

/- ── Method-bearing style: the class combinators ──────────────────── -/

/-- `Ok.map` returns `new Ok(fn(this.value))`; `Err.map` ignores the
function and returns the same instance. -/
def Result.map : Result V E → (V → V2) → Result V2 E
  | .Ok v, fn => .Ok (fn v)
  | .Err e, _ => .Err e

/-- `Ok.flatMap` returns `fn(this.value)` directly; `Err.flatMap`
ignores the function and returns the same instance. -/
def Result.flatMap : Result V E → (V → Result V2 E) → Result V2 E
  | .Ok v, fn => fn v
  | .Err e, _ => .Err e

/-- `Ok.unwrap` returns the contained value; `Err.unwrap` throws the
contained error value itself (`throw this.error`).  A raised exception
is modelled by the `Except.error` constructor carrying the thrown value. -/
def Result.unwrap : Result V E → Except E V
  | .Ok v => .ok v
  | .Err e => .error e

/-- The bound iterators: `Ok`'s generator yields the value once, `Err`'s
generator yields nothing.  The list collects the yielded elements. -/
def Result.iterElems : Result V E → List V
  | .Ok v => [v]
  | .Err _ => []

/-- `Ok.raw` / `Err.raw`: the plain wire shape `{ ok, value }` or
`{ ok, error }`, which is also what `JSON.stringify` sees (the class
fields `ok` and `value`/`error` are the own enumerable properties). -/
def Result.raw : ResultV → Val
  | .Ok v => .obj (.cons "ok" (.bool true) (.cons "value" v .nil))
  | .Err e => .obj (.cons "ok" (.bool false) (.cons "error" e .nil))

/-- `Err.annotate(type, payload)` builds the object literal
`{ type, ...payload, cause: this.error }` and wraps it in a new `Err`. -/
def Result.annotate (e : Val) (t : String) (p : ObjFields) : ResultV :=
  .Err (.obj ((ObjFields.spread (.cons "type" (.str t) .nil) p).set "cause" e))

/-- The curried class-style constructor
`err(type)(payload = {})`: `new Err({ type, ...payload })`. -/
def errCurried (t : String) (p : ObjFields) : ResultV :=
  .Err (.obj (ObjFields.spread (.cons "type" (.str t) .nil) p))

/- ── Free-function style: records and free combinators ────────────── -/

namespace FnStyle

/-- The record-style `ok(value)` constructor: the literal
`{ ok: true, value }`, viewed as a dynamic JS object. -/
def okVal (v : Val) : Val :=
  .obj (.cons "ok" (.bool true) (.cons "value" v .nil))

/-- The record-style Failure record `{ ok: false, error }`, viewed as a
dynamic JS object. -/
def errVal (e : Val) : Val :=
  .obj (.cons "ok" (.bool false) (.cons "error" e .nil))

/-- Free `map(r, fn)`: `r.ok ? ok(fn(r.value)) : r`. -/
def map : Result V E → (V → V2) → Result V2 E
  | .Ok v, fn => .Ok (fn v)
  | .Err e, _ => .Err e

/-- Free `flatMap(r, fn)`: `r.ok ? fn(r.value) : r`. -/
def flatMap : Result V E → (V → Result V2 E) → Result V2 E
  | .Ok v, fn => fn v
  | .Err e, _ => .Err e

/-- Free `unwrap(r)`: `if (r.ok) return r.value; throw r.error`. -/
def unwrap : Result V E → Except E V
  | .Ok v => .ok v
  | .Err e => .error e

/-- Index properties of an array, starting at the given index. -/
def arrFields : Nat → ValList → ObjFields
  | _, .nil => .nil
  | i, .cons x xs => .cons (toString i) x (arrFields (i + 1) xs)

/-- Index properties of a string, one single-character string each. -/
def strFields : Nat → List Char → ObjFields
  | _, [] => .nil
  | i, c :: cs => .cons (toString i) (.str (String.mk [c])) (strFields (i + 1) cs)

/-- The own enumerable string-keyed properties a value contributes when
spread into an object literal: an object yields its fields, an array and
a string yield their index properties, primitives yield nothing. -/
def ownFields : Val → ObjFields
  | .obj fs => fs
  | .arr xs => arrFields 0 xs
  | .str s => strFields 0 s.toList
  | _ => .nil

/-- The free-function `err` implementation:
`if (payload) return { ok: false, error: { type: typeOrPayload, ...payload } };
else return { ok: false, error: typeOrPayload }`.
A single-argument call passes `payload = undefined`. -/
def err (typeOrPayload : Val) (payload : Val) : ResultV :=
  if jsTruthy payload then
    .Err (.obj (ObjFields.spread (.cons "type" typeOrPayload .nil) (ownFields payload)))
  else
    .Err typeOrPayload

/-- Free `annotate(r, type, payload = {})` on a Failure: the record
`{ ok: false, error: { type, ...payload, cause: r.error } }`. -/
def annotate (e : Val) (t : String) (p : ObjFields) : ResultV :=
  .Err (.obj ((ObjFields.spread (.cons "type" (.str t) .nil) p).set "cause" e))

end FnStyle

/- ── Universal adapter ────────────────────────────────────────────── -/

/-- The value `result` raises and catches when the synchronous branch
invokes an operand that is not a function. -/
def typeErrorNotFunction : Val := .str "TypeError: work is not a function"

/-- The value `for…of` raises on a value with no iteration protocol. -/
def typeErrorNotIterable : Val := .str "TypeError: work is not iterable"

/-- An operand handed to the adapter `result(work)`:
  * `value v` — any non-callable JS value without promise behaviour
    (plain records, primitives, arrays, serialized Results);
  * `promise settle` — a genuine promise-like with a callable `then`,
    whose single settlement fulfills with a value or rejects with a
    reason;
  * `fn run` — a zero-argument callable whose one invocation either
    returns normally or throws. -/
inductive Operand where
  | value (v : Val)
  | promise (settle : Except Val Val)
  | fn (run : Except Val Val)

/-- The adapter's output: an immediate Result, or a pending promise
that resolves to the given Result. -/
inductive AdapterOut where
  | now (r : ResultV)
  | pending (r : ResultV)
deriving DecidableEq

/-- Wrapping a settled outcome: fulfillment/normal return through `ok`,
rejection/thrown exception through `errAny` (stored verbatim). -/
def wrapOutcome : Except Val Val → ResultV
  | .ok v => .Ok v
  | .error e => .Err e

/-- The class-style universal adapter (method-bearing module):
```
if (typeof work === "object" && work !== null && "ok" in work)
  return work.ok ? new Ok(work.value) : new Err(work.error)
if (isPromiseLike(work))
  return Promise.resolve(work).then(ok).catch(e => errAny(e))
try { return ok(work()) } catch (e) { return errAny(e) }
```
A function operand has `typeof work === "function"`, so both object
guards fail and it reaches the synchronous branch.  A non-callable,
non-thenable object reaches the synchronous branch too, where invoking
it throws a `TypeError` that the `catch` turns into a Failure.  An
object whose `then` key holds a non-callable value is not assimilated
by `Promise.resolve`, which fulfills with the object itself. -/
def resultClass : Operand → AdapterOut
  | .value v =>
      if isObjLike v && v.hasKey "ok" then
        .now (if jsTruthy (v.getKey "ok") then .Ok (v.getKey "value")
              else .Err (v.getKey "error"))
      else if isObjLike v && v.hasKey "then" then
        .pending (.Ok v)
      else
        .now (.Err typeErrorNotFunction)
  | .promise settle => .pending (wrapOutcome settle)
  | .fn run => .now (wrapOutcome run)

/-- The free-function universal adapter (record module): identical to
the class-style one except that it has **no** rehydration branch —
it tests `isPromiseLike` first and otherwise invokes the operand:
```
if (isPromiseLike(work))
  return Promise.resolve(work).then(ok).catch(e => errAny(e))
try { return ok(work()) } catch (e) { return errAny(e) }
``` -/
def resultFn : Operand → AdapterOut
  | .value v =>
      if isObjLike v && v.hasKey "then" then
        .pending (.Ok v)
      else
        .now (.Err typeErrorNotFunction)
  | .promise settle => .pending (wrapOutcome settle)
  | .fn run => .now (wrapOutcome run)

/-- One invocation of a zero-argument callable: its outcome, together
with a count of how many calls were performed. -/
def callOnce (run : Except Val Val) : Except Val Val × Nat := (run, 1)

/-- The synchronous branch of both adapters, instrumented with the
invocation count: `try { return ok(work()) } catch (e) { return
errAny(e) }` contains a single call site and the `catch` arm performs
no further call. -/
def resultSyncCounted (run : Except Val Val) : ResultV × Nat :=
  let step := callOnce run
  (wrapOutcome step.1, step.2)

/- ── Discriminant matching ────────────────────────────────────────── -/

/-- A cases map for discriminant matching: keys paired with
zero-argument handler functions (its own enumerable entries). -/
abbrev CasesMap := List (String × (Unit → Val))

/-- Own-property lookup on the cases map (the first step of the
property access `b[a]`; inherited members are handled below). -/
def lookupCase : CasesMap → String → Option (Unit → Val)
  | [], _ => none
  | (k, f) :: rest, d => if k = d then some f else lookupCase rest d

/-- The raised value when `b[a]` is `undefined` (or otherwise not
callable) and `b[a]()` is executed. -/
def typeErrorBadGetter : Val := .str "TypeError: Getter must be a function"

/-- The raised value of `__defineSetter__` with no arguments. -/
def typeErrorBadSetter : Val := .str "TypeError: Setter must be a function"

/-- The observable outcome of `return b[a]()`: a normal return of a
plain value, a normal return of the cases-map object itself (which the
model cannot embed in `Val` because its entries are functions), or a
raised exception. -/
inductive MatchOut where
  | ret (v : Val)
  | retReceiver
  | raised (e : Val)
deriving DecidableEq

/-- The prototype chain of the property access `b[a]` on a plain
object literal `b`: when `b` has no own entry for the key, `b[a]`
resolves through `Object.prototype`.  Each standard member is modelled
by the outcome of `b[a]()` — a zero-argument call with receiver `b`:
  * `toString` returns `"[object Object]"` for a plain object receiver;
  * `toLocaleString` calls `this.toString()`, which is the own handler
    when the map declares one and the inherited one otherwise;
  * `valueOf` returns the receiver itself;
  * `constructor` is `Object`, and `Object()` returns a fresh `{}`;
  * `hasOwnProperty`/`propertyIsEnumerable` coerce the absent argument
    to the key `"undefined"` and report on that own key;
  * `isPrototypeOf` of a non-object is `false`;
  * `__lookupGetter__`/`__lookupSetter__` find no accessor and return
    `undefined`;
  * `__proto__` reads as `Object.prototype`, which is not callable, so
    the call raises; `__defineGetter__`/`__defineSetter__` reject the
    absent function argument and raise.
Keys naming none of these resolve to `undefined`, so `b[a]()` raises. -/
def protoCall (d : String) (cases : CasesMap) : Option MatchOut :=
  if d = "toString" then some (.ret (.str "[object Object]"))
  else if d = "toLocaleString" then
    some (match lookupCase cases "toString" with
          | some f => .ret (f ())
          | none => .ret (.str "[object Object]"))
  else if d = "valueOf" then some .retReceiver
  else if d = "constructor" then some (.ret (.obj .nil))
  else if d = "hasOwnProperty" then
    some (.ret (.bool (lookupCase cases "undefined").isSome))
  else if d = "propertyIsEnumerable" then
    some (.ret (.bool (lookupCase cases "undefined").isSome))
  else if d = "isPrototypeOf" then some (.ret (.bool false))
  else if d = "__lookupGetter__" then some (.ret .undefined)
  else if d = "__lookupSetter__" then some (.ret .undefined)
  else if d = "__proto__" then some (.raised typeErrorNotFunction)
  else if d = "__defineGetter__" then some (.raised typeErrorBadGetter)
  else if d = "__defineSetter__" then some (.raised typeErrorBadSetter)
  else none

/-- The discriminant branch of the free-function `match(a, b)`: a string
first argument fails the `typeof a === "object"` guard, so the
implementation executes `return b[a]()`.  An own entry is invoked with
no arguments; otherwise the access falls back to the prototype chain
(`protoCall`); only when that also yields nothing is `b[a]` the value
`undefined`, whose invocation raises a `TypeError`. -/
def matchDisc (d : String) (cases : CasesMap) : MatchOut :=
  match lookupCase cases d with
  | some f => .ret (f ())
  | none =>
      match protoCall d cases with
      | some out => out
      | none => .raised typeErrorNotFunction

/- ── Host iteration protocol ──────────────────────────────────────── -/

/-- The elements of an array value, as a list. -/
def ValList.toList : ValList → List Val
  | .nil => []
  | .cons x xs => x :: xs.toList

/-- `for…of` over a dynamic JS value: arrays and strings are iterable;
`undefined`, `null`, booleans, numbers and plain objects (which include
the record-style Result literals, whose declared members are only
`ok`/`value`/`error`) expose no iteration protocol, so iterating them
throws a `TypeError`. -/
def jsIterate : Val → Except Val (List Val)
  | .arr xs => .ok xs.toList
  | .str s => .ok (s.toList.map (fun c => .str (String.mk [c])))
  | _ => .error typeErrorNotIterable

/- ── JSON serialization round trip ────────────────────────────────── -/

mutual

/-- `JSON.parse(JSON.stringify(v))` as a transformation on value trees:
object fields holding `undefined` are dropped, array elements holding
`undefined` become `null`, everything else in the model is preserved
(the model has no functions or symbols). -/
def jsonRT : Val → Val
  | .undefined => .undefined
  | .null => .null
  | .bool b => .bool b
  | .num n => .num n
  | .str s => .str s
  | .arr xs => .arr (jsonRTL xs)
  | .obj fs => .obj (jsonRTF fs)

/-- JSON round trip on array elements (`undefined` becomes `null`). -/
def jsonRTL : ValList → ValList
  | .nil => .nil
  | .cons .undefined xs => .cons .null (jsonRTL xs)
  | .cons x xs => .cons (jsonRT x) (jsonRTL xs)

/-- JSON round trip on object fields (`undefined` fields are dropped). -/
def jsonRTF : ObjFields → ObjFields
  | .nil => .nil
  | .cons _ .undefined rest => jsonRTF rest
  | .cons k v rest => .cons k (jsonRT v) (jsonRTF rest)

end

mutual

/-- Whether a value contains no `undefined` anywhere, so that the JSON
text round trip preserves it exactly. -/
def jsonClean : Val → Bool
  | .undefined => false
  | .null => true
  | .bool _ => true
  | .num _ => true
  | .str _ => true
  | .arr xs => jsonCleanL xs
  | .obj fs => jsonCleanF fs

/-- `jsonClean` on array elements. -/
def jsonCleanL : ValList → Bool
  | .nil => true
  | .cons x xs => jsonClean x && jsonCleanL xs

/-- `jsonClean` on object fields. -/
def jsonCleanF : ObjFields → Bool
  | .nil => true
  | .cons _ v rest => jsonClean v && jsonCleanF rest

end

/- ── Helper lemmas ────────────────────────────────────────────────── -/

mutual

theorem jsonRT_clean : ∀ v : Val, jsonClean v = true → jsonRT v = v
  | .undefined, h => by simp [jsonClean] at h
  | .null, _ => rfl
  | .bool _, _ => rfl
  | .num _, _ => rfl
  | .str _, _ => rfl
  | .arr xs, h => by
      rw [jsonRT, jsonRTL_clean xs (by simpa [jsonClean] using h)]
  | .obj fs, h => by
      rw [jsonRT, jsonRTF_clean fs (by simpa [jsonClean] using h)]

theorem jsonRTL_clean : ∀ xs : ValList, jsonCleanL xs = true → jsonRTL xs = xs
  | .nil, _ => rfl
  | .cons x xs, h => by
      have h1 : jsonClean x = true := by
        simp [jsonCleanL] at h; exact h.1
      have h2 : jsonCleanL xs = true := by
        simp [jsonCleanL] at h; exact h.2
      cases x with
      | undefined => simp [jsonClean] at h1
      | null => rw [jsonRTL, jsonRT_clean _ h1, jsonRTL_clean xs h2]; simp
      | bool b => rw [jsonRTL, jsonRT_clean _ h1, jsonRTL_clean xs h2]; simp
      | num n => rw [jsonRTL, jsonRT_clean _ h1, jsonRTL_clean xs h2]; simp
      | str s => rw [jsonRTL, jsonRT_clean _ h1, jsonRTL_clean xs h2]; simp
      | arr ys => rw [jsonRTL, jsonRT_clean _ h1, jsonRTL_clean xs h2]; simp
      | obj fs => rw [jsonRTL, jsonRT_clean _ h1, jsonRTL_clean xs h2]; simp

theorem jsonRTF_clean : ∀ fs : ObjFields, jsonCleanF fs = true → jsonRTF fs = fs
  | .nil, _ => rfl
  | .cons k v rest, h => by
      have h1 : jsonClean v = true := by
        simp [jsonCleanF] at h; exact h.1
      have h2 : jsonCleanF rest = true := by
        simp [jsonCleanF] at h; exact h.2
      cases v with
      | undefined => simp [jsonClean] at h1
      | null => rw [jsonRTF, jsonRT_clean _ h1, jsonRTF_clean rest h2]; simp
      | bool b => rw [jsonRTF, jsonRT_clean _ h1, jsonRTF_clean rest h2]; simp
      | num n => rw [jsonRTF, jsonRT_clean _ h1, jsonRTF_clean rest h2]; simp
      | str s => rw [jsonRTF, jsonRT_clean _ h1, jsonRTF_clean rest h2]; simp
      | arr ys => rw [jsonRTF, jsonRT_clean _ h1, jsonRTF_clean rest h2]; simp
      | obj gs => rw [jsonRTF, jsonRT_clean _ h1, jsonRTF_clean rest h2]; simp

end

theorem ObjFields.hasKey_cons (k0 : String) (v0 : Val) (rest : ObjFields)
    (k : String) :
    (ObjFields.cons k0 v0 rest).hasKey k = ((k0 = k) || rest.hasKey k) := by
  by_cases h : k0 = k <;> simp [ObjFields.hasKey, ObjFields.lookup, h]

theorem ObjFields.set_absent : ∀ (fs : ObjFields) (k : String) (v : Val),
    fs.hasKey k = false → fs.set k v = fs.append (.cons k v .nil)
  | .nil, _, _, _ => rfl
  | .cons k0 v0 rest, k, v, h => by
      rw [ObjFields.hasKey_cons] at h
      simp only [Bool.or_eq_false_iff] at h
      have hk : ¬(k0 = k) := by simpa using h.1
      rw [ObjFields.set, ObjFields.append, if_neg hk,
        ObjFields.set_absent rest k v h.2]

theorem ObjFields.hasKey_append : ∀ (p q : ObjFields) (k : String),
    (p.append q).hasKey k = (p.hasKey k || q.hasKey k)
  | .nil, q, k => by
      simp [ObjFields.append, ObjFields.hasKey, ObjFields.lookup]
  | .cons k0 v0 rest, q, k => by
      rw [ObjFields.append, ObjFields.hasKey_cons, ObjFields.hasKey_cons,
        ObjFields.hasKey_append rest q k, Bool.or_assoc]

theorem ObjFields.append_assoc : ∀ p q r : ObjFields,
    (p.append q).append r = p.append (q.append r)
  | .nil, _, _ => rfl
  | .cons k v rest, q, r => by
      rw [ObjFields.append, ObjFields.append, ObjFields.append,
        ObjFields.append_assoc rest q r]

theorem ObjFields.append_nil : ∀ p : ObjFields, p.append .nil = p
  | .nil => rfl
  | .cons k v rest => by
      rw [ObjFields.append, ObjFields.append_nil rest]

/-- Spreading fields whose keys are fresh for the accumulator and
pairwise distinct is plain concatenation. -/
theorem ObjFields.spread_append : ∀ (p acc : ObjFields),
    (∀ k, p.hasKey k = true → acc.hasKey k = false) →
    p.nodupKeys = true → acc.spread p = acc.append p
  | .nil, acc, _, _ => by
      rw [ObjFields.spread, ObjFields.append_nil]
  | .cons k v rest, acc, hfresh, hnd => by
      rw [ObjFields.nodupKeys, Bool.and_eq_true] at hnd
      have hk : rest.hasKey k = false := by
        cases hrk : rest.hasKey k with
        | false => rfl
        | true => rw [hrk] at hnd; simp at hnd
      have hacc : acc.hasKey k = false := by
        apply hfresh
        rw [ObjFields.hasKey_cons]; simp
      have hfresh2 : ∀ k2, rest.hasKey k2 = true →
          (acc.append (.cons k v .nil)).hasKey k2 = false := by
        intro k2 hk2
        rw [ObjFields.hasKey_append, Bool.or_eq_false_iff]
        constructor
        · apply hfresh
          rw [ObjFields.hasKey_cons, hk2, Bool.or_true]
        · rw [ObjFields.hasKey_cons]
          simp only [ObjFields.hasKey, ObjFields.lookup, Option.isSome_none,
            Bool.or_false]
          by_cases hkk : k = k2
          · subst hkk; rw [hk] at hk2; exact absurd hk2 (by simp)
          · simpa using hkk
      rw [ObjFields.spread, ObjFields.set_absent acc k v hacc,
        ObjFields.spread_append rest (acc.append (.cons k v .nil)) hfresh2 hnd.2,
        ObjFields.append_assoc]
      rfl

theorem ObjFields.lookup_append : ∀ (p q : ObjFields) (k : String),
    (p.append q).lookup k =
      match p.lookup k with
      | some v => some v
      | none => q.lookup k
  | .nil, _, _ => rfl
  | .cons k0 v0 rest, q, k => by
      by_cases h : k0 = k
      · rw [ObjFields.append]; simp [ObjFields.lookup, h]
      · rw [ObjFields.append]; simp only [ObjFields.lookup, if_neg h]
        exact ObjFields.lookup_append rest q k

theorem ObjFields.keys_append : ∀ p q : ObjFields,
    (p.append q).keys = p.keys ++ q.keys
  | .nil, _ => rfl
  | .cons k v rest, q => by
      rw [ObjFields.append, ObjFields.keys, ObjFields.keys,
        ObjFields.keys_append rest q]
      rfl

/-- Keys of a one-field accumulator are fresh for a field list lacking
that key. -/
theorem singleton_fresh (p : ObjFields) (k0 : String) (v0 : Val)
    (h : p.hasKey k0 = false) :
    ∀ k, p.hasKey k = true → (ObjFields.cons k0 v0 .nil).hasKey k = false := by
  intro k hk
  rw [ObjFields.hasKey_cons]
  simp only [ObjFields.hasKey, ObjFields.lookup, Option.isSome_none,
    Bool.or_false]
  by_cases hkk : k0 = k
  · subst hkk; rw [h] at hk; exact absurd hk (by simp)
  · simpa using hkk

/-- The object literal `{ k0: v0, ...p }` for a payload `p` with
distinct keys not containing `k0` is the plain field list
`k0: v0` followed by `p`. -/
theorem literal_spread (p : ObjFields) (k0 : String) (v0 : Val)
    (h : p.hasKey k0 = false) (hnd : p.nodupKeys = true) :
    ObjFields.spread (.cons k0 v0 .nil) p = .cons k0 v0 p := by
  rw [ObjFields.spread_append p (.cons k0 v0 .nil)
    (singleton_fresh p k0 v0 h) hnd]
  rfl

/- ── Claim theorems ───────────────────────────────────────────────── -/

/-- C6: `map` sends `Success(v)` to `Success(f(v))`; on a `Failure` it
returns the failure unchanged (the class method returns the identical
instance) and the function is never invoked — the output is the same
failure whatever function is supplied.  Both API styles. -/
theorem map_spec :
    (∀ (V E V2 : Type) (v : V) (f : V → V2),
      Result.map (E := E) (.Ok v) f = .Ok (f v)) ∧
    (∀ (V E V2 : Type) (e : E) (f g : V → V2),
      Result.map (.Err e) f = .Err e ∧
      Result.map (.Err e) f = Result.map (.Err e) g) ∧
    (∀ (V E V2 : Type) (v : V) (f : V → V2),
      FnStyle.map (E := E) (.Ok v) f = .Ok (f v)) ∧
    (∀ (V E V2 : Type) (e : E) (f g : V → V2),
      FnStyle.map (.Err e) f = .Err e ∧
      FnStyle.map (.Err e) f = FnStyle.map (.Err e) g) := by
  refine ⟨?_, ?_, ?_, ?_⟩ <;> intros <;>
    simp [Result.map, FnStyle.map]

/-- C7: `flatMap` sends `Success(v)` to exactly `f(v)` with no further
wrapping; on a `Failure` it returns the failure unchanged and the
function is never invoked.  Both API styles. -/
theorem flatMap_spec :
    (∀ (V E V2 : Type) (v : V) (f : V → Result V2 E),
      Result.flatMap (.Ok v) f = f v) ∧
    (∀ (V E V2 : Type) (e : E) (f g : V → Result V2 E),
      Result.flatMap (.Err e) f = .Err e ∧
      Result.flatMap (.Err e) f = Result.flatMap (.Err e) g) ∧
    (∀ (V E V2 : Type) (v : V) (f : V → Result V2 E),
      FnStyle.flatMap (.Ok v) f = f v) ∧
    (∀ (V E V2 : Type) (e : E) (f g : V → Result V2 E),
      FnStyle.flatMap (.Err e) f = .Err e ∧
      FnStyle.flatMap (.Err e) f = FnStyle.flatMap (.Err e) g) := by
  refine ⟨?_, ?_, ?_, ?_⟩ <;> intros <;>
    simp [Result.flatMap, FnStyle.flatMap]

/-- C4: `unwrap` returns the value of a `Success` and raises exactly the
contained error value itself on a `Failure` (the `Except.error`
constructor carries the very value stored in the `error` field, with no
synthetic wrapper).  Both API styles. -/
theorem unwrap_spec :
    (∀ (V E : Type) (v : V), Result.unwrap (E := E) (.Ok v) = .ok v) ∧
    (∀ (V E : Type) (e : E), Result.unwrap (V := V) (.Err e) = .error e) ∧
    (∀ (V E : Type) (v : V), FnStyle.unwrap (E := E) (.Ok v) = .ok v) ∧
    (∀ (V E : Type) (e : E), FnStyle.unwrap (V := V) (.Err e) = .error e) := by
  refine ⟨?_, ?_, ?_, ?_⟩ <;> intros <;>
    simp [Result.unwrap, FnStyle.unwrap]

/-- C5: on a zero-argument callable both adapters invoke it
synchronously exactly once (`resultSyncCounted` records one call,
performed by the single call site of the `try` block); a normal return
`v` becomes `Success(v)` and a thrown `x` becomes `Failure(x)` with the
exception value stored verbatim.  The adapters are total functions into
`AdapterOut`, so the exception is never rethrown to the caller. -/
theorem adapter_sync_callable_spec :
    (∀ v : Val, resultClass (.fn (.ok v)) = .now (.Ok v)) ∧
    (∀ x : Val, resultClass (.fn (.error x)) = .now (.Err x)) ∧
    (∀ v : Val, resultFn (.fn (.ok v)) = .now (.Ok v)) ∧
    (∀ x : Val, resultFn (.fn (.error x)) = .now (.Err x)) ∧
    (∀ run : Except Val Val, resultSyncCounted run = (wrapOutcome run, 1)) ∧
    (∀ run : Except Val Val,
      resultClass (.fn run) = .now (resultSyncCounted run).1 ∧
      resultFn (.fn run) = .now (resultSyncCounted run).1) := by
  refine ⟨fun v => rfl, fun x => rfl, fun v => rfl, fun x => rfl,
    fun run => rfl, fun run => ⟨rfl, rfl⟩⟩

/-- C8 (amended): `match(d, cases)` invokes the handler stored under an
own key `d` with no arguments and returns its result; when `d` names no
own entry, the access `cases[d]` falls back to the prototype chain —
for a key naming an inherited `Object.prototype` member the inherited
outcome is produced (most of these silently return a value instead of
raising), and only a key naming neither an own entry nor an inherited
member makes `cases[d]` the value `undefined`, whose invocation raises
the unmatched-case `TypeError`. -/
theorem match_discriminant_amended (d : String) (cases : CasesMap)
    (f : Unit → Val) :
    (lookupCase cases d = some f → matchDisc d cases = .ret (f ())) ∧
    (lookupCase cases d = none → protoCall d cases = none →
      matchDisc d cases = .raised typeErrorNotFunction) ∧
    (lookupCase cases d = none → ∀ out : MatchOut,
      protoCall d cases = some out → matchDisc d cases = out) := by
  refine ⟨?_, ?_, ?_⟩
  · intro h; simp [matchDisc, h]
  · intro h hp; simp [matchDisc, h, hp]
  · intro h out hp; simp [matchDisc, h, hp]

/-- Witness for C8 (amended): `match("Timeout", {Timeout: () => 2500})`
returns `2500`; `match("Other", …)` on the same map raises the
unmatched-case `TypeError`; `match("toString", …)` reaches the
inherited member and silently returns `"[object Object]"`. -/
theorem match_discriminant_amended_witness :
    matchDisc "Timeout" [("Timeout", fun _ => Val.num 2500)] =
      .ret (Val.num 2500) ∧
    matchDisc "Other" [("Timeout", fun _ => Val.num 2500)] =
      .raised typeErrorNotFunction ∧
    matchDisc "toString" [("Timeout", fun _ => Val.num 2500)] =
      .ret (.str "[object Object]") := by
  refine ⟨?_, ?_, ?_⟩
  · exact (match_discriminant_amended "Timeout"
      [("Timeout", fun _ => Val.num 2500)] (fun _ => Val.num 2500)).1 rfl
  · exact (match_discriminant_amended "Other"
      [("Timeout", fun _ => Val.num 2500)] (fun _ => Val.num 2500)).2.1 rfl rfl
  · exact (match_discriminant_amended "toString"
      [("Timeout", fun _ => Val.num 2500)] (fun _ => Val.num 2500)).2.2 rfl
      (.ret (.str "[object Object]")) rfl

/-- Counterexample for C8 as stated: a lookup miss does not always
raise.  `match("toString", {Timeout: () => 2500})` has no own entry for
the discriminant, yet it silently returns `"[object Object]"` through
the inherited member, and `match("hasOwnProperty", …)` silently returns
`false` — neither signals an unmatched-case error. -/
theorem match_discriminant_counterexample :
    matchDisc "toString" [("Timeout", fun _ => Val.num 2500)] =
      .ret (.str "[object Object]") ∧
    matchDisc "hasOwnProperty" [("Timeout", fun _ => Val.num 2500)] =
      .ret (.bool false) ∧
    matchDisc "toString" [("Timeout", fun _ => Val.num 2500)] ≠
      .raised typeErrorNotFunction := by
  refine ⟨rfl, rfl, ?_⟩
  intro h
  simp [matchDisc, lookupCase, protoCall] at h

/-- C9 (amended): the sequence view exists in the method-bearing style
only — its bound iterator yields `[v]` for a Success and `[]` for a
Failure; the free-function style's plain records declare only the
`ok`/`value`/`error` members, expose no iteration protocol, and the
record module exports no sequence operation, so iterating a record
raises a `TypeError`. -/
theorem sequence_view_amended :
    (∀ (V E : Type) (v : V), Result.iterElems (E := E) (.Ok v) = [v]) ∧
    (∀ (V E : Type) (e : E), Result.iterElems (V := V) (.Err e) = []) ∧
    (∀ v : Val, jsIterate (FnStyle.okVal v) = .error typeErrorNotIterable) ∧
    (∀ e : Val, jsIterate (FnStyle.errVal e) = .error typeErrorNotIterable) := by
  refine ⟨fun V E v => rfl, fun V E e => rfl, fun v => rfl, fun e => rfl⟩

/-- Counterexample for C9 as stated: in the free-function style,
iterating the Success record for `3` does not yield the one-element
sequence `[3]` — the record is not iterable and iteration raises. -/
theorem sequence_view_counterexample :
    jsIterate (FnStyle.okVal (.num 3)) = .error typeErrorNotIterable ∧
    jsIterate (FnStyle.okVal (.num 3)) ≠ .ok [Val.num 3] := by
  refine ⟨rfl, ?_⟩
  intro h
  simp [jsIterate, FnStyle.okVal] at h

/-- C1 (amended): a plain record operand with an `ok` field is
classified as already-Result-shaped by the **method-bearing** adapter
before its promise-like and callable checks (the conclusion holds even
when the record also carries a `then` member) and is rehydrated into an
immediate Result with the same `ok` discriminant and the same
`value`/`error` field, the operand never being invoked or awaited; the
**free-function** adapter has no Result-shape branch — it checks only
promise-likeness and then invokes the operand, so a plain non-thenable
record becomes a Failure wrapping the invocation `TypeError`. -/
theorem adapter_rehydration_amended :
    (∀ fs : ObjFields, fs.hasKey "ok" = true →
      resultClass (.value (.obj fs)) =
        .now (if jsTruthy ((fs.lookup "ok").getD .undefined)
              then .Ok ((fs.lookup "value").getD .undefined)
              else .Err ((fs.lookup "error").getD .undefined))) ∧
    (∀ v : Val, resultClass (.value (FnStyle.okVal v)) = .now (.Ok v)) ∧
    (∀ e : Val, resultClass (.value (FnStyle.errVal e)) = .now (.Err e)) ∧
    (∀ fs : ObjFields, fs.hasKey "ok" = true → fs.hasKey "then" = false →
      resultFn (.value (.obj fs)) = .now (.Err typeErrorNotFunction)) := by
  refine ⟨?_, ?_, ?_, ?_⟩
  · intro fs h
    simp [resultClass, isObjLike, Val.hasKey, h, Val.getKey]
  · intro v
    simp [resultClass, FnStyle.okVal, isObjLike, Val.hasKey, Val.getKey,
      ObjFields.hasKey, ObjFields.lookup, jsTruthy]
  · intro e
    simp [resultClass, FnStyle.errVal, isObjLike, Val.hasKey, Val.getKey,
      ObjFields.hasKey, ObjFields.lookup, jsTruthy]
  · intro fs h1 h2
    simp [resultFn, isObjLike, Val.hasKey, h2]

/-- Witness for C1 (amended) at the record `{ ok: true, value: 1 }`:
the method-bearing adapter rehydrates it to `Success(1)`; the
free-function adapter produces the `TypeError` Failure. -/
theorem adapter_rehydration_amended_witness :
    resultClass (.value (FnStyle.okVal (.num 1))) = .now (.Ok (.num 1)) ∧
    resultFn (.value (FnStyle.okVal (.num 1))) =
      .now (.Err typeErrorNotFunction) := by
  constructor
  · exact adapter_rehydration_amended.2.1 (Val.num 1)
  · exact adapter_rehydration_amended.2.2.2
      (.cons "ok" (.bool true) (.cons "value" (.num 1) .nil))
      (by decide) (by decide)

/-- Counterexample for C1 as stated: the free-function adapter applied
to the plain Success record `{ ok: true, value: 1 }` does not rehydrate
it — the record falls through to the callable branch, whose invocation
raises a `TypeError` that is captured as a Failure. -/
theorem adapter_rehydration_counterexample :
    resultFn (.value (FnStyle.okVal (.num 1))) =
      .now (.Err typeErrorNotFunction) ∧
    resultFn (.value (FnStyle.okVal (.num 1))) ≠ .now (.Ok (.num 1)) := by
  refine ⟨rfl, ?_⟩
  decide

/-- C2: serializing a Result to its plain wire shape, round-tripping it
through JSON text, and passing the parsed plain record through the
method-bearing adapter yields a Result equal to the original — same
`ok` discriminant, equal `value`/`error` — whenever the payload is
JSON-representable (contains no `undefined`). -/
theorem serialize_roundtrip_spec (r : ResultV)
    (h : jsonClean r.payload = true) :
    resultClass (.value (jsonRT (Result.raw r))) = .now r := by
  cases r with
  | Ok v =>
      have hv : jsonClean v = true := h
      have hf : jsonCleanF
          (.cons "ok" (.bool true) (.cons "value" v .nil)) = true := by
        simp [jsonCleanF, jsonClean, hv]
      rw [Result.raw, jsonRT, jsonRTF_clean _ hf]
      simp [resultClass, isObjLike, Val.hasKey, ObjFields.hasKey,
        ObjFields.lookup, Val.getKey, jsTruthy]
  | Err e =>
      have he : jsonClean e = true := h
      have hf : jsonCleanF
          (.cons "ok" (.bool false) (.cons "error" e .nil)) = true := by
        simp [jsonCleanF, jsonClean, he]
      rw [Result.raw, jsonRT, jsonRTF_clean _ hf]
      simp [resultClass, isObjLike, Val.hasKey, ObjFields.hasKey,
        ObjFields.lookup, Val.getKey, jsTruthy]

/-- Witness for C2: `Success(9)` survives the serialize → deserialize →
rehydrate round trip (the test suite's rehydration case). -/
theorem serialize_roundtrip_spec_witness :
    resultClass (.value (jsonRT (Result.raw (.Ok (.num 9))))) =
      .now (.Ok (.num 9)) :=
  serialize_roundtrip_spec (.Ok (.num 9)) (by decide)

/-- C3: on a Failure carrying `e`, `annotate(r, type, payload)` returns
a new Failure whose error is exactly the object literal
`{ type, ...payload, cause: e }` — the field `type`, then the payload's
fields, then `cause` bound to the prior error value itself — in both
API styles, for every payload record (with distinct keys) that does not
itself use the reserved `type`/`cause` keys. -/
theorem annotate_spec (e : Val) (t : String) (p : ObjFields)
    (ht : p.hasKey "type" = false) (hc : p.hasKey "cause" = false)
    (hnd : p.nodupKeys = true) :
    Result.annotate e t p =
      .Err (.obj (.cons "type" (.str t) (p.append (.cons "cause" e .nil)))) ∧
    FnStyle.annotate e t p =
      .Err (.obj (.cons "type" (.str t) (p.append (.cons "cause" e .nil)))) := by
  have hsp := literal_spread p "type" (.str t) ht hnd
  have hset : (ObjFields.cons "type" (Val.str t) p).set "cause" e =
      .cons "type" (.str t) (p.append (.cons "cause" e .nil)) := by
    rw [ObjFields.set, if_neg (by decide), ObjFields.set_absent p "cause" e hc]
  constructor
  · rw [Result.annotate, hsp, hset]
  · rw [FnStyle.annotate, hsp, hset]

/-- Witness for C3: the spec's concrete example —
`annotate(Failure({type:"A", id:2}), "B", {extra:1})` equals
`Failure({type:"B", extra:1, cause:{type:"A", id:2}})`. -/
theorem annotate_spec_witness :
    Result.annotate
        (.obj (.cons "type" (.str "A") (.cons "id" (.num 2) .nil)))
        "B" (.cons "extra" (.num 1) .nil) =
      .Err (.obj (.cons "type" (.str "B") (.cons "extra" (.num 1)
        (.cons "cause"
          (.obj (.cons "type" (.str "A") (.cons "id" (.num 2) .nil)))
          .nil)))) :=
  (annotate_spec
    (.obj (.cons "type" (.str "A") (.cons "id" (.num 2) .nil)))
    "B" (.cons "extra" (.num 1) .nil)
    (by decide) (by decide) (by decide)).1

/-- C10: the free-function `err` yields the conventional discriminated
shape only in its two-argument form — with a truthy payload record `p`
the error is the literal `{ type: t, ...p }` — while a one-argument
call, or one whose second argument is falsy, stores the first argument
verbatim as the error; so `err("X")` carries the bare string `"X"`,
unlike the curried class-style `err("X")()` whose error is the object
`{ type: "X" }`. -/
theorem errFn_shape_spec (t : String) (p : ObjFields)
    (ht : p.hasKey "type" = false) (hnd : p.nodupKeys = true) :
    FnStyle.err (.str t) (.obj p) = .Err (.obj (.cons "type" (.str t) p)) ∧
    (∀ x : Val, FnStyle.err x .undefined = .Err x) ∧
    (∀ x q : Val, jsTruthy q = false → FnStyle.err x q = .Err x) ∧
    FnStyle.err (.str "X") .undefined = .Err (.str "X") ∧
    errCurried "X" .nil = .Err (.obj (.cons "type" (.str "X") .nil)) := by
  refine ⟨?_, fun x => rfl, ?_, rfl, rfl⟩
  · rw [FnStyle.err, if_pos (by rfl)]
    show Result.Err (Val.obj (ObjFields.spread
      (.cons "type" (.str t) .nil) p)) = _
    rw [literal_spread p "type" (.str t) ht hnd]
  · intro x q hq
    rw [FnStyle.err, if_neg (by simp [hq])]

/-- Witness for C10: `err("Timeout", {ms: 1000})` yields
`{ok:false, error:{type:"Timeout", ms:1000}}`. -/
theorem errFn_shape_spec_witness :
    FnStyle.err (.str "Timeout") (.obj (.cons "ms" (.num 1000) .nil)) =
      .Err (.obj (.cons "type" (.str "Timeout")
        (.cons "ms" (.num 1000) .nil))) :=
  (errFn_shape_spec "Timeout" (.cons "ms" (.num 1000) .nil)
    (by decide) (by decide)).1

end OkErr
